import Mathlib

/-
Shallow embedding of the reactive-state demo in src/src/main.js
(the reactive module: getValueAtPath, createLiveTrackingPrimitive,
createLiveTrackingProxy, isPrimitive, recordDependency,
triggerRecomputations, runComputation, computed, subscribe).

JavaScript values are modelled by an inductive JSValue with null,
undefined, strings, integer numbers, booleans and plain objects
(insertion-ordered association lists of string keys).  Function values
never occur as data in this system and are not modelled; in particular
the function-valued built-in members of primitive values (prototype
methods of String, Number, Boolean) read as vUndefined here, while the
data-valued built-in members of strings (length and canonical character
indices, which optional chaining does expose) are modelled exactly.

Mutable global state (computedRegistry, dependencyGraph,
currentComputation) is threaded explicitly as an Engine record; an
exception raised by a computation body is an Except.error outcome that
is propagated alongside the post-state.  Date.now() is modelled as a
logical clock (Engine.now) that ticks on each completed run.  A
computation body (a zero-argument closure) is modelled by the sequence
of paths whose live references it coerces during a run together with
its outcome; for a deterministic body over unchanged root state both
are fixed.  Engine.callbackLog records every invocation of a subscriber
callback by the engine; the source contains no call site for the
subscribers array, so no operation writes this log.
-/

namespace CosplayingFns

/-- JavaScript values as used by this program: null, undefined, string,
number, boolean, plain object (insertion-ordered string-keyed fields),
and vHost — an opaque host built-in reached by reading a built-in
member of a boxed primitive: a prototype method such as toString or
charAt, or the prototype object behind the proto accessor.  A vHost
value is not data of the state tree: it is neither primitive (typeof
is function, or it is a prototype object) nor a plain state object;
what lies inside it is outside this model's scope and is kept opaque,
and no theorem in this file resolves a path through one. -/
inductive JSValue where
  | vNull : JSValue
  | vUndefined : JSValue
  | vStr : String → JSValue
  | vNum : Int → JSValue
  | vBool : Bool → JSValue
  | vObj : List (String × JSValue) → JSValue
  | vHost : JSValue

open JSValue

/-- Field lookup on a plain object: first binding of the key, or
undefined when the key is missing (JS obj[prop] on a missing
property). -/
def lookupField : List (String × JSValue) → String → JSValue
  | [], _ => vUndefined
  | (k0, v0) :: rest, k => if k0 = k then v0 else lookupField rest k

/-- A decimal digit character. -/
def isDigitCh (c : Char) : Bool := '0' ≤ c && c ≤ '9'

/-- Value of a list of decimal digit characters. -/
def digitsVal (l : List Char) : Nat :=
  l.foldl (fun acc c => acc * 10 + (c.toNat - 48)) 0

/-- Canonical numeric index of a string: the key must be the canonical
decimal form (nonempty, all digits, no leading zero) of a natural
number below the length (JS array-index semantics for string character
access). -/
def canonIndex (s : String) (k : String) : Option Nat :=
  let l := k.data
  if l ≠ [] ∧ l.all isDigitCh ∧ (l.head? ≠ some '0' ∨ l = ['0']) ∧ digitsVal l < s.length
  then some (digitsVal l) else none

/-- String prefix test, character by character; agrees with the
byte-level test JS performs in dep.startsWith(...) since a character
sequence is a prefix exactly when its UTF-8 bytes are. -/
def strStartsWith (s pre : String) : Bool :=
  decide (s.data.take pre.data.length = pre.data)

/-- The string-keyed members of Object.prototype per ECMA-262
(including Annex B), inherited by every boxed primitive: accessing one
of these keys on a boxed primitive yields a host function (or, for the
proto accessor, a prototype object), never the absent marker. -/
def objProtoMemberKey (k : String) : Bool :=
  decide (k ∈ ["constructor", "hasOwnProperty", "isPrototypeOf",
    "propertyIsEnumerable", "toLocaleString", "toString", "valueOf",
    "__proto__", "__defineGetter__", "__defineSetter__",
    "__lookupGetter__", "__lookupSetter__"])

/-- The string-keyed members reachable on a boxed number: the
Number.prototype methods per ECMA-262 plus the inherited
Object.prototype members. -/
def numProtoMemberKey (k : String) : Bool :=
  decide (k ∈ ["constructor", "toExponential", "toFixed",
    "toLocaleString", "toPrecision", "toString", "valueOf"])
  || objProtoMemberKey k

/-- The string-keyed members reachable on a boxed boolean: the
Boolean.prototype methods per ECMA-262 plus the inherited
Object.prototype members. -/
def boolProtoMemberKey (k : String) : Bool :=
  decide (k ∈ ["constructor", "toString", "valueOf"])
  || objProtoMemberKey k

/-- The string-keyed method members reachable on a boxed string: the
String.prototype methods per ECMA-262 (including Annex B) plus the
inherited Object.prototype members; the data-valued members length and
character indices are handled separately. -/
def strProtoMemberKey (k : String) : Bool :=
  decide (k ∈ ["at", "charAt", "charCodeAt", "codePointAt", "concat",
    "constructor", "endsWith", "includes", "indexOf", "isWellFormed",
    "lastIndexOf", "localeCompare", "match", "matchAll", "normalize",
    "padEnd", "padStart", "repeat", "replace", "replaceAll", "search",
    "slice", "split", "startsWith", "substring", "toLocaleLowerCase",
    "toLocaleUpperCase", "toLowerCase", "toString", "toUpperCase",
    "toWellFormed", "trim", "trimEnd", "trimStart", "valueOf",
    "anchor", "big", "blink", "bold", "fixed", "fontcolor", "fontsize",
    "italics", "link", "small", "strike", "sub", "substr", "sup",
    "trimLeft", "trimRight"])
  || objProtoMemberKey k

/-- One step of the optional-chaining access current?.[key] from
getValueAtPath: nullish values short-circuit to undefined; objects
look up the field; strings expose their data-valued built-ins (length
and canonical in-range character indices) and, like numbers and
booleans, their prototype members, which are function values (or a
prototype object) represented by the opaque vHost; any other key on a
primitive yields undefined.  Data objects are modelled by their own
fields; navigation inside a host built-in is outside the model and
stays at the opaque vHost. -/
def indexVal (v : JSValue) (k : String) : JSValue :=
  match v with
  | vNull => vUndefined
  | vUndefined => vUndefined
  | vStr s =>
      if k = "length" then vNum (Int.ofNat s.length)
      else
        match canonIndex s k with
        | some i => vStr (String.singleton (s.data.getD i ' '))
        | none => if strProtoMemberKey k then vHost else vUndefined
  | vNum _ => if numProtoMemberKey k then vHost else vUndefined
  | vBool _ => if boolProtoMemberKey k then vHost else vUndefined
  | vObj fields => lookupField fields k
  | vHost => vHost

/-- getValueAtPath from main.js: path.reduce((current, key) =>
current?.[key], obj).  Pure and total: no side effects, never
raises. -/
def getValueAtPath (obj : JSValue) (path : List String) : JSValue :=
  path.foldl (fun current key => indexVal current key) obj

/-- isPrimitive from main.js: null, undefined, string, number or
boolean; a host built-in (typeof function, or a prototype object) is
not primitive. -/
def isPrimitive : JSValue → Bool
  | vNull => true
  | vUndefined => true
  | vStr _ => true
  | vNum _ => true
  | vBool _ => true
  | vObj _ => false
  | vHost => false

/-- Tests whether indexing this primitive with this key reaches a
built-in member of its boxed wrapper instead of yielding undefined:
for a string, its length, a canonical in-range character index, or a
String.prototype or Object.prototype member; for a number or boolean,
a Number.prototype, Boolean.prototype or Object.prototype member. -/
def boxedMemberKey : JSValue → String → Bool
  | vStr s, k => (k = "length") || (canonIndex s k).isSome || strProtoMemberKey k
  | vNum _, k => numProtoMemberKey k
  | vBool _, k => boolProtoMemberKey k
  | _, _ => false

/-- JS assignment obj[prop] = v on a plain object: replaces the first
binding of the key in place, or appends a new binding (property
insertion order). -/
def setField : List (String × JSValue) → String → JSValue → List (String × JSValue)
  | [], k, v => [(k, v)]
  | (k0, v0) :: rest, k, v =>
      if k0 = k then (k, v) :: rest else (k0, v0) :: setField rest k v

/-- A write through the interception layer at a full path: wrappers
exist only over object subtrees, so every step before the final key
must currently be an object; the final assignment happens on that
object.  Writing through a missing or leaf step is unreachable through
wrappers freshly derived from the root and is a no-op here. -/
def setValueAtPath (r : JSValue) (p : List String) (nv : JSValue) : JSValue :=
  match p, r with
  | [], _ => r
  | [k], vObj fs => vObj (setField fs k nv)
  | k :: k2 :: rest, vObj fs =>
      match lookupField fs k with
      | vObj fs2 => vObj (setField fs k (setValueAtPath (vObj fs2) (k2 :: rest) nv))
      | _ => vObj fs
  | _ :: _, _ => r

/-- A path is writable from a root when every step before the final key
is currently an object (exactly when a wrapper chain down to the parent
can be derived from the root). -/
def writable (r : JSValue) (p : List String) : Bool :=
  match p, r with
  | [], _ => false
  | [_], vObj _ => true
  | k :: k2 :: rest, vObj fs => writable (lookupField fs k) (k2 :: rest)
  | _ :: _, _ => false

/-- Canonical key of a path: path.join(".") as used by recordDependency
and triggerRecomputations. -/
def dotJoin (path : List String) : String := String.intercalate "." path

/-- A live tracking primitive from createLiveTrackingPrimitive: it
captures only its bound path (the root state it captures by reference
is supplied at each coercion, since the JS reference always denotes the
current contents of the mutated-in-place root). -/
structure LiveRef where
  path : List String

/-- Result of the proxy get trap: a live tracking primitive, a nested
tracking proxy, or the raw value (non-primitive non-object, e.g. a
function; unreachable in this value model). -/
inductive ReadResult where
  | live : List String → ReadResult
  | wrapper : JSValue → List String → ReadResult
  | raw : JSValue → ReadResult

/-- The get trap of createLiveTrackingProxy for a string property:
primitives yield a live tracking primitive at basePath ++ [prop],
objects yield a nested proxy over the value with the extended path,
anything else is returned raw. -/
def proxyGet (target : JSValue) (basePath : List String) (prop : String) : ReadResult :=
  let value := indexVal target prop
  let currentPath := basePath ++ [prop]
  if isPrimitive value then ReadResult.live currentPath
  else
    match value with
    | vObj fields => ReadResult.wrapper (vObj fields) currentPath
    | _ => ReadResult.raw value

/-- Reading a chain of properties through nested tracking proxies,
starting from a proxy over the given target at the given base path:
each intermediate key must yield a nested proxy and the final key a
live tracking primitive; any other shape does not produce a live
reference through the interception layer. -/
def readChain : JSValue → List String → List String → Option LiveRef
  | _, _, [] => none
  | target, bp, [k] =>
      match proxyGet target bp k with
      | ReadResult.live p => some { path := p }
      | _ => none
  | target, bp, k :: k2 :: rest =>
      match proxyGet target bp k with
      | ReadResult.wrapper t p => readChain t p (k2 :: rest)
      | _ => none

/-- A computation body: the paths whose live references it coerces
during a run, in order, and its outcome (returned value or raised
failure).  Deterministic over unchanged root state. -/
structure CompFn where
  reads : List (List String)
  outcome : Except Unit JSValue

/-- A computedRegistry entry: fn, lastResult, lastRun, subscribers
(callbacks modelled by numeric identifiers). -/
structure CompEntry where
  fn : CompFn
  lastResult : JSValue
  lastRun : Nat
  subscribers : List Nat

/-- The module-level mutable state of reactive.js: computedRegistry and
dependencyGraph (insertion-ordered maps), the currentComputation slot,
a logical clock for Date.now(), and a log of subscriber-callback
invocations performed by the engine (nothing in the source invokes
subscribers, so no operation appends to it). -/
structure Engine where
  computedRegistry : List (String × CompEntry)
  dependencyGraph : List (String × List String)
  currentComputation : Option String
  now : Nat
  callbackLog : List (String × Nat)

/-- The initial module state: empty maps, no active computation. -/
def emptyEngine : Engine :=
  { computedRegistry := [], dependencyGraph := [], currentComputation := none,
    now := 1, callbackLog := [] }

/-- Map lookup on an insertion-ordered association list (JS
Map.get). -/
def lookupAssoc {α : Type} : List (String × α) → String → Option α
  | [], _ => none
  | (k0, v0) :: rest, k => if k0 = k then some v0 else lookupAssoc rest k

/-- Map update on an insertion-ordered association list (JS Map.set):
an existing key keeps its position, a new key is appended. -/
def setAssoc {α : Type} : List (String × α) → String → α → List (String × α)
  | [], k, v => [(k, v)]
  | (k0, v0) :: rest, k, v =>
      if k0 = k then (k, v) :: rest else (k0, v0) :: setAssoc rest k v

/-- JS Set.add on an insertion-ordered set of strings: appends the
element when absent. -/
def addToSet (s : List String) (x : String) : List String :=
  if x ∈ s then s else s ++ [x]

/-- recordDependency from main.js: a no-op unless a computation is
active; otherwise adds the dot-joined path key to the active
computation's dependency set (creating the set if missing). -/
def recordDependency (path : List String) (e : Engine) : Engine :=
  match e.currentComputation with
  | none => e
  | some c =>
      let pathKey := dotJoin path
      let deps := (lookupAssoc e.dependencyGraph c).getD []
      { e with dependencyGraph := setAssoc e.dependencyGraph c (addToSet deps pathKey) }

/-- Coercing a live tracking primitive (Symbol.toPrimitive / valueOf /
toString): resolve the bound path against the current root contents,
report the read (recordDependency decides whether anything is
recorded), and return the resolved value. -/
def coerceLive (currentRoot : JSValue) (l : LiveRef) (e : Engine) : Engine × JSValue :=
  (recordDependency l.path e, getValueAtPath currentRoot l.path)

/-- The engine effect of a computation body performing its coercions in
order (each coercion reports its path through recordDependency). -/
def recordReads (reads : List (List String)) (e : Engine) : Engine :=
  reads.foldl (fun acc p => recordDependency p acc) e

/-- runComputation from main.js: missing name returns undefined;
otherwise clear the dependency set, mark the computation active, invoke
its body, then on success store lastResult and lastRun and return the
result; the active slot is cleared on every exit (the finally block),
and a raised failure propagates with lastResult and lastRun
untouched. -/
def runComputation (name : String) (e : Engine) : Engine × Except Unit JSValue :=
  match lookupAssoc e.computedRegistry name with
  | none => (e, Except.ok vUndefined)
  | some comp =>
      let e1 : Engine :=
        { e with dependencyGraph := setAssoc e.dependencyGraph name [],
                 currentComputation := some name }
      let e2 := recordReads comp.fn.reads e1
      match comp.fn.outcome with
      | Except.error u => ({ e2 with currentComputation := none }, Except.error u)
      | Except.ok v =>
          let upd : CompEntry := { comp with lastResult := v, lastRun := e2.now }
          ({ e2 with computedRegistry := setAssoc e2.computedRegistry name upd,
                     now := e2.now + 1,
                     currentComputation := none }, Except.ok v)

/-- The object literal stored by computed: fn, lastResult undefined,
lastRun 0, empty subscribers. -/
def freshEntry (fn : CompFn) : CompEntry :=
  { fn := fn, lastResult := vUndefined, lastRun := 0, subscribers := [] }

/-- computed from main.js: store a fresh registry entry under the name
(lastResult undefined, lastRun 0, no subscribers) and immediately run
it, returning the run's result. -/
def computed (name : String) (fn : CompFn) (e : Engine) : Engine × Except Unit JSValue :=
  runComputation name
    { e with computedRegistry := setAssoc e.computedRegistry name (freshEntry fn) }

/-- subscribe from main.js: push the callback onto the entry's
subscribers array; silent no-op for an unknown name. -/
def subscribe (name : String) (cb : Nat) (e : Engine) : Engine :=
  match lookupAssoc e.computedRegistry name with
  | none => e
  | some comp =>
      let upd : CompEntry := { comp with subscribers := comp.subscribers ++ [cb] }
      { e with computedRegistry := setAssoc e.computedRegistry name upd }

/-- The match test of triggerRecomputations: some recorded dependency
key equals the changed key, or extends it below a dot, or is extended
by it below a dot. -/
def shouldRecompute (pathKey : String) (deps : List String) : Bool :=
  deps.any (fun dep =>
    dep = pathKey || strStartsWith dep (pathKey ++ ".")
      || strStartsWith pathKey (dep ++ "."))

/-- The loop of triggerRecomputations over the dependency-graph keys:
each name whose current dependency set matches is re-run synchronously
in order; a failure propagates at once, aborting the remaining
iteration.  Also returns the names actually re-run (ghost observation
used to state the claims). -/
def triggerGo (pathKey : String) : List String → Engine → Engine × Except Unit (List String)
  | [], e => (e, Except.ok [])
  | name :: rest, e =>
      let deps := (lookupAssoc e.dependencyGraph name).getD []
      if shouldRecompute pathKey deps then
        match runComputation name e with
        | (e1, Except.error u) => (e1, Except.error u)
        | (e1, Except.ok _) =>
            match triggerGo pathKey rest e1 with
            | (e2, Except.error u) => (e2, Except.error u)
            | (e2, Except.ok ran) => (e2, Except.ok (name :: ran))
      else triggerGo pathKey rest e

/-- triggerRecomputations from main.js: dot-join the changed path and
run the loop over the registered dependency-graph entries in insertion
order. -/
def triggerRecomputations (changedPath : List String) (e : Engine) :
    Engine × Except Unit (List String) :=
  triggerGo (dotJoin changedPath) (e.dependencyGraph.map Prod.fst) e

/-- The set trap of createLiveTrackingProxy on a wrapper freshly
derived from the root at basePath: perform the mutation on the
underlying object, then trigger recomputations for the changed path;
the trap itself always reports success. -/
def proxySet (root : JSValue) (basePath : List String) (prop : String) (nv : JSValue)
    (e : Engine) : JSValue × (Engine × Except Unit (List String)) :=
  (setValueAtPath root (basePath ++ [prop]) nv,
   triggerRecomputations (basePath ++ [prop]) e)

/-- A sequence of mutations applied through the interception layer:
each is a write through a wrapper freshly derived from the current root
at a base path.  The mutations are those actually applied; a cascade
failure surfaces to the writing caller, who here continues with the
rest. -/
def applyWrites (root : JSValue) (e : Engine) :
    List (List String × String × JSValue) → JSValue × Engine
  | [] => (root, e)
  | (bp, k, v) :: rest =>
      let step := proxySet root bp k v e
      applyWrites step.1 step.2.1 rest

/-- The dependency set produced by a run whose body coerces exactly
these paths in order: dot-joined keys accumulated into an
insertion-ordered set. -/
def pathKeys (reads : List (List String)) : List String :=
  reads.foldl (fun s p => addToSet s (dotJoin p)) []

/-- An Except outcome is a normal return. -/
def isOk : Except Unit JSValue → Bool
  | Except.ok _ => true
  | Except.error _ => false

/-- A name is registered with a body that returns normally. -/
def registeredOk (reg : List (String × CompEntry)) (name : String) : Bool :=
  match lookupAssoc reg name with
  | some c => isOk c.fn.outcome
  | none => false

/-- Concrete fixture: the root of the spec scenario, a nested object
with a at b holding 1. -/
def rootW : JSValue := vObj [("a", vObj [("b", vNum 1)])]

/-- Concrete fixture: replace the whole container a by a new container
holding 2 at the suffix key b. -/
def mutsW : List (List String × String × JSValue) := [([], "a", vObj [("b", vNum 2)])]

/-- Concrete fixture: a body that coerces the live reference at path a
and returns 1. -/
def fnC3 : CompFn := { reads := [["a"]], outcome := Except.ok (vNum 1) }

/-- Concrete fixture: an engine whose computation c previously recorded
dependencies on both a and b. -/
def eC3 : Engine :=
  { emptyEngine with
    computedRegistry :=
      [("c", { fn := fnC3, lastResult := vUndefined, lastRun := 0, subscribers := [] })],
    dependencyGraph := [("c", ["a", "b"])] }

/-- Concrete fixture: a body with no reads returning 1. -/
def fnC4 : CompFn := { reads := [], outcome := Except.ok (vNum 1) }

/-- Concrete fixture: register c and then subscribe callback 7 to
it. -/
def eC4 : Engine := subscribe "c" 7 (computed "c" fnC4 emptyEngine).1

/-- Concrete fixture: a body that raises. -/
def fnC6 : CompFn := { reads := [["a"]], outcome := Except.error () }

/-- Concrete fixture: an engine whose computation c has a failing body
and a previously stored result. -/
def eC6 : Engine :=
  { emptyEngine with
    computedRegistry :=
      [("c", { fn := fnC6, lastResult := vNum 9, lastRun := 3, subscribers := [] })] }

/-- Concrete fixture: a root whose container a has no field b. -/
def rootC7 : JSValue := vObj [("a", vObj [])]

/-- Concrete fixture: a registered computation that read
user.firstName. -/
def entryF : CompEntry :=
  { fn := { reads := [["user", "firstName"]], outcome := Except.ok (vStr "x") },
    lastResult := vUndefined, lastRun := 0, subscribers := [] }

/-- Concrete fixture: a registered computation that read an unrelated
path. -/
def entryG : CompEntry :=
  { fn := { reads := [["zzz"]], outcome := Except.ok (vStr "y") },
    lastResult := vUndefined, lastRun := 0, subscribers := [] }

/-- Concrete fixture: an engine with two registered computations, one
depending on user.firstName and one on zzz. -/
def eC2 : Engine :=
  { emptyEngine with
    computedRegistry := [("f", entryF), ("g", entryG)],
    dependencyGraph := [("f", ["user.firstName"]), ("g", ["zzz"])] }

/-- Concrete fixture: an engine with an active computation, so that
dependency recording is live. -/
def eC9 : Engine := { emptyEngine with currentComputation := some "c" }

/-- Concrete fixture: a replacement body returning 4. -/
def fnC10 : CompFn := { reads := [], outcome := Except.ok (vNum 4) }

/-- Concrete fixture: an engine whose computation c already has a
subscriber and a stored result. -/
def eC10 : Engine :=
  { emptyEngine with
    computedRegistry :=
      [("c", { fn := fnC3, lastResult := vNum 9, lastRun := 3, subscribers := [5] })] }

/-!  Helper lemmas about the insertion-ordered maps and the engine
small steps.  -/

theorem lookupAssoc_setAssoc_self {α : Type} (l : List (String × α)) (k : String) (v : α) :
    lookupAssoc (setAssoc l k v) k = some v := by
  induction l with
  | nil => simp [setAssoc, lookupAssoc]
  | cons hd tl ih =>
      obtain ⟨k0, v0⟩ := hd
      by_cases h : k0 = k
      · simp [setAssoc, h, lookupAssoc]
      · simp [setAssoc, h, lookupAssoc, ih]

theorem lookupAssoc_setAssoc_ne {α : Type} (l : List (String × α)) (k m : String) (v : α)
    (h : k ≠ m) : lookupAssoc (setAssoc l k v) m = lookupAssoc l m := by
  induction l with
  | nil => simp [setAssoc, lookupAssoc, h]
  | cons hd tl ih =>
      obtain ⟨k0, v0⟩ := hd
      by_cases h0 : k0 = k
      · subst h0; simp [setAssoc, lookupAssoc, h]
      · simp [setAssoc, h0, lookupAssoc, ih]

theorem lookupAssoc_of_mem {α : Type} :
    ∀ (l : List (String × α)) (pr : String × α),
      (l.map Prod.fst).Nodup → pr ∈ l → lookupAssoc l pr.1 = some pr.2
  | [], pr, _, hmem => by cases hmem
  | (k0, v0) :: tl, pr, hnd, hmem => by
      rcases List.mem_cons.mp hmem with h | h
      · subst h; simp [lookupAssoc]
      · have hk : k0 ≠ pr.1 := by
          intro hk
          have : pr.1 ∈ tl.map Prod.fst := List.mem_map_of_mem Prod.fst h
          rw [← hk] at this
          exact (List.nodup_cons.mp hnd).1 this
        simp only [lookupAssoc, if_neg hk]
        exact lookupAssoc_of_mem tl pr (List.nodup_cons.mp hnd).2 h

theorem recordDependency_currentComputation (p : List String) (e : Engine) :
    (recordDependency p e).currentComputation = e.currentComputation := by
  unfold recordDependency
  cases hc : e.currentComputation <;> simp [hc]

theorem recordDependency_computedRegistry (p : List String) (e : Engine) :
    (recordDependency p e).computedRegistry = e.computedRegistry := by
  unfold recordDependency
  cases hc : e.currentComputation <;> simp [hc]

theorem recordDependency_graph_ne (p : List String) (e : Engine) (c m : String)
    (hc : e.currentComputation = some c) (hm : m ≠ c) :
    lookupAssoc (recordDependency p e).dependencyGraph m = lookupAssoc e.dependencyGraph m := by
  unfold recordDependency
  rw [hc]
  exact lookupAssoc_setAssoc_ne _ _ _ _ (fun h => hm h.symm)

theorem recordDependency_graph_self (p : List String) (e : Engine) (c : String) (s : List String)
    (hc : e.currentComputation = some c) (hs : lookupAssoc e.dependencyGraph c = some s) :
    lookupAssoc (recordDependency p e).dependencyGraph c =
      some (addToSet s (dotJoin p)) := by
  unfold recordDependency
  rw [hc]
  simp only [hs, Option.getD_some]
  exact lookupAssoc_setAssoc_self _ _ _

theorem recordReads_currentComputation (reads : List (List String)) :
    ∀ e : Engine, (recordReads reads e).currentComputation = e.currentComputation := by
  induction reads with
  | nil => intro e; rfl
  | cons p rest ih =>
      intro e
      show (recordReads rest (recordDependency p e)).currentComputation = _
      rw [ih, recordDependency_currentComputation]

theorem recordReads_computedRegistry (reads : List (List String)) :
    ∀ e : Engine, (recordReads reads e).computedRegistry = e.computedRegistry := by
  induction reads with
  | nil => intro e; rfl
  | cons p rest ih =>
      intro e
      show (recordReads rest (recordDependency p e)).computedRegistry = _
      rw [ih, recordDependency_computedRegistry]

theorem recordReads_graph_ne (reads : List (List String)) :
    ∀ (e : Engine) (c m : String), e.currentComputation = some c → m ≠ c →
      lookupAssoc (recordReads reads e).dependencyGraph m = lookupAssoc e.dependencyGraph m := by
  induction reads with
  | nil => intro e c m _ _; rfl
  | cons p rest ih =>
      intro e c m hc hm
      show lookupAssoc (recordReads rest (recordDependency p e)).dependencyGraph m = _
      rw [ih (recordDependency p e) c m (by rw [recordDependency_currentComputation, hc]) hm,
          recordDependency_graph_ne p e c m hc hm]

theorem recordReads_graph_self (reads : List (List String)) :
    ∀ (e : Engine) (c : String) (s : List String), e.currentComputation = some c →
      lookupAssoc e.dependencyGraph c = some s →
      lookupAssoc (recordReads reads e).dependencyGraph c =
        some (reads.foldl (fun acc p => addToSet acc (dotJoin p)) s) := by
  induction reads with
  | nil => intro e c s _ hs; exact hs
  | cons p rest ih =>
      intro e c s hc hs
      show lookupAssoc (recordReads rest (recordDependency p e)).dependencyGraph c = _
      exact ih (recordDependency p e) c (addToSet s (dotJoin p))
        (by rw [recordDependency_currentComputation, hc])
        (recordDependency_graph_self p e c s hc hs)

theorem runComputation_registry_fn (e : Engine) (name m : String) :
    (lookupAssoc (runComputation name e).1.computedRegistry m).map CompEntry.fn =
      (lookupAssoc e.computedRegistry m).map CompEntry.fn := by
  unfold runComputation
  split
  · rfl
  next comp hreg =>
    split
    next u ho => rw [recordReads_computedRegistry]
    next v ho =>
      show (lookupAssoc (setAssoc (recordReads comp.fn.reads _).computedRegistry name _) m).map
            CompEntry.fn = _
      by_cases hm : name = m
      · subst hm
        rw [lookupAssoc_setAssoc_self, hreg]
        rfl
      · rw [lookupAssoc_setAssoc_ne _ _ _ _ hm, recordReads_computedRegistry]

theorem runComputation_graph_ne (e : Engine) (name m : String) (hm : m ≠ name) :
    lookupAssoc (runComputation name e).1.dependencyGraph m =
      lookupAssoc e.dependencyGraph m := by
  unfold runComputation
  split
  · rfl
  next comp hreg =>
    split
    next u ho =>
      rw [recordReads_graph_ne _ _ name m rfl hm]
      exact lookupAssoc_setAssoc_ne _ _ _ _ (fun h => hm h.symm)
    next v ho =>
      rw [recordReads_graph_ne _ _ name m rfl hm]
      exact lookupAssoc_setAssoc_ne _ _ _ _ (fun h => hm h.symm)

theorem runComputation_ret (e : Engine) (name : String) (comp : CompEntry)
    (hreg : lookupAssoc e.computedRegistry name = some comp) :
    (runComputation name e).2 = comp.fn.outcome := by
  unfold runComputation
  split
  next hnone => rw [hnone] at hreg; cases hreg
  next comp' hsome =>
    have hc : comp' = comp := by rw [hsome] at hreg; exact Option.some.inj hreg
    subst hc
    split
    next u ho => rw [ho]
    next v ho => rw [ho]

theorem registeredOk_congr (r1 r2 : List (String × CompEntry)) (m : String)
    (h : (lookupAssoc r1 m).map CompEntry.fn = (lookupAssoc r2 m).map CompEntry.fn) :
    registeredOk r1 m = registeredOk r2 m := by
  unfold registeredOk
  cases h1 : lookupAssoc r1 m with
  | none =>
      cases h2 : lookupAssoc r2 m with
      | none => rfl
      | some c2 => rw [h1, h2] at h; simp at h
  | some c1 =>
      cases h2 : lookupAssoc r2 m with
      | none => rw [h1, h2] at h; simp at h
      | some c2 =>
          rw [h1, h2] at h
          simp at h
          show isOk c1.fn.outcome = isOk c2.fn.outcome
          rw [h]

/-- Claim C3: after any run of a registered computation completes, its
dependency set equals exactly the dot-joined keys of the paths whose
live references the body coerced during that run, accumulated from an
empty set — the previous set is fully replaced, whatever it was, so a
re-run that only reads A leaves exactly the singleton set A. -/
theorem dependency_set_exact (e : Engine) (name : String) (comp : CompEntry)
    (hreg : lookupAssoc e.computedRegistry name = some comp) :
    lookupAssoc (runComputation name e).1.dependencyGraph name =
      some (pathKeys comp.fn.reads) := by
  unfold runComputation
  split
  next hnone => rw [hnone] at hreg; cases hreg
  next comp' hsome =>
    have hc : comp' = comp := by rw [hsome] at hreg; exact Option.some.inj hreg
    subst hc
    split
    next u ho =>
      exact recordReads_graph_self _ _ name [] rfl (lookupAssoc_setAssoc_self _ _ _)
    next v ho =>
      exact recordReads_graph_self _ _ name [] rfl (lookupAssoc_setAssoc_self _ _ _)

/-- Witness for C3: an engine whose computation c previously depended
on both a and b re-runs a body that reads only a; afterwards its
dependency set is exactly the singleton a. -/
theorem dependency_set_exact_witness :
    lookupAssoc eC3.computedRegistry "c" =
      some { fn := fnC3, lastResult := vUndefined, lastRun := 0, subscribers := [] } ∧
    lookupAssoc eC3.dependencyGraph "c" = some ["a", "b"] ∧
    lookupAssoc (runComputation "c" eC3).1.dependencyGraph "c" = some ["a"] :=
  ⟨rfl, rfl,
    (dependency_set_exact eC3 "c"
      { fn := fnC3, lastResult := vUndefined, lastRun := 0, subscribers := [] } rfl).trans rfl⟩

/-- Claim C4 (code bug): the spec says every callback registered via
subscribe is invoked whenever the computation re-runs, but
runComputation never touches the subscribers array: here c has
callback 7 subscribed, a re-run completes (lastRun advances from 1 to
2), the callback is still registered, yet the engine performed no
callback invocation at all. -/
theorem subscribe_callbacks_never_invoked :
    (lookupAssoc eC4.computedRegistry "c").map CompEntry.subscribers = some [7] ∧
    (lookupAssoc (runComputation "c" eC4).1.computedRegistry "c").map CompEntry.lastRun =
      some 2 ∧
    (lookupAssoc (runComputation "c" eC4).1.computedRegistry "c").map CompEntry.subscribers =
      some [7] ∧
    (runComputation "c" eC4).1.callbackLog = [] :=
  ⟨rfl, rfl, rfl, rfl⟩

theorem resolve_undefined_rest : ∀ rest : List String,
    getValueAtPath vUndefined rest = vUndefined
  | [] => rfl
  | _ :: rest => resolve_undefined_rest rest

/-- Counterexample to claim C5 as stated: resolving the non-empty
remaining path [length] against the string intermediate value at s does
not yield the absent marker — it yields the string's length 2, because
optional chaining indexes into boxed string primitives. -/
theorem resolve_string_not_absent :
    getValueAtPath (vObj [("s", vStr "hi")]) ["s"] = vStr "hi" ∧
    getValueAtPath (vObj [("s", vStr "hi")]) ["s", "length"] = vNum 2 ∧
    getValueAtPath (vObj [("s", vStr "hi")]) ["s", "length"] ≠ vUndefined :=
  ⟨rfl, rfl, fun h => by rw [show getValueAtPath (vObj [("s", vStr "hi")]) ["s", "length"] = vNum 2 from rfl] at h; exact JSValue.noConfusion h⟩

/-- Claim C5 (amended): resolve walks the path key by key; a step
whose current value is null or undefined, or is a string, number or
boolean read with a key that names no built-in member of its boxed
wrapper, yields the absent marker, and the remaining path keeps it
absent — absent is a tolerated terminal state, and the walk is a pure
total function (no side effects, never raises).  Built-in member keys
are the exception the original claim misses: optional chaining boxes
the primitive, so a string is indexable at length and at character
positions (the counterexample: resolving s then length over an object
holding the string hi at s yields 2), and prototype-method keys such
as toString reach host functions rather than the absent marker. -/
theorem resolve_leaf_amended (v : JSValue) (k : String) (rest : List String)
    (hp : isPrimitive v = true) (hs : boxedMemberKey v k = false) :
    getValueAtPath v (k :: rest) = vUndefined := by
  have hstep : indexVal v k = vUndefined := by
    cases v with
    | vNull => rfl
    | vUndefined => rfl
    | vNum n =>
        have hm : numProtoMemberKey k = false := hs
        show (if numProtoMemberKey k then vHost else vUndefined) = vUndefined
        rw [if_neg (by simp [hm])]
    | vBool b =>
        have hm : boolProtoMemberKey k = false := hs
        show (if boolProtoMemberKey k then vHost else vUndefined) = vUndefined
        rw [if_neg (by simp [hm])]
    | vObj fields => simp [isPrimitive] at hp
    | vHost => simp [isPrimitive] at hp
    | vStr s =>
        unfold boxedMemberKey at hs
        rw [Bool.or_eq_false_iff, Bool.or_eq_false_iff] at hs
        obtain ⟨⟨h1, h2⟩, h3⟩ := hs
        show (if k = "length" then vNum (Int.ofNat s.length)
              else match canonIndex s k with
                | some i => vStr (String.singleton (s.data.getD i ' '))
                | none => if strProtoMemberKey k then vHost else vUndefined)
            = vUndefined
        rw [if_neg (by simpa using h1)]
        cases hc : canonIndex s k with
        | some i => rw [hc] at h2; simp at h2
        | none => rw [if_neg (by simp [h3])]
  show getValueAtPath (indexVal v k) rest = vUndefined
  rw [hstep]
  exact resolve_undefined_rest rest

/-- Witness for C5's amended claim: resolving x then y against the
number 5 yields the absent marker, x naming no built-in member of the
boxed number. -/
theorem resolve_leaf_amended_witness :
    isPrimitive (vNum 5) = true ∧ boxedMemberKey (vNum 5) "x" = false ∧
    getValueAtPath (vNum 5) ["x", "y"] = vUndefined :=
  ⟨rfl, rfl, resolve_leaf_amended (vNum 5) "x" ["y"] rfl rfl⟩

/-- Claim C6: when a registered computation's body raises, the failure
propagates to the caller of the run, yet the active-computation slot is
cleared before propagation, and the registry — in particular the
computation's lastResult and lastRun — is left untouched by the failed
run. -/
theorem failed_run_releases_slot (e : Engine) (name : String) (comp : CompEntry) (u : Unit)
    (hreg : lookupAssoc e.computedRegistry name = some comp)
    (herr : comp.fn.outcome = Except.error u) :
    (runComputation name e).2 = Except.error u ∧
    (runComputation name e).1.currentComputation = none ∧
    (runComputation name e).1.computedRegistry = e.computedRegistry := by
  unfold runComputation
  split
  next hnone => rw [hnone] at hreg; cases hreg
  next comp' hsome =>
    have hc : comp' = comp := by rw [hsome] at hreg; exact Option.some.inj hreg
    subst hc
    split
    next u2 ho =>
      rw [ho] at herr
      have hu : u2 = u := by cases herr; rfl
      subst hu
      exact ⟨rfl, rfl, recordReads_computedRegistry _ _⟩
    next v ho => rw [ho] at herr; cases herr

/-- Witness for C6: computation c with a raising body: the error
propagates, the slot is clear, and the stored result 9 with timestamp 3
survives. -/
theorem failed_run_releases_slot_witness :
    (runComputation "c" eC6).2 = Except.error () ∧
    (runComputation "c" eC6).1.currentComputation = none ∧
    (runComputation "c" eC6).1.computedRegistry = eC6.computedRegistry :=
  failed_run_releases_slot eC6 "c"
    { fn := fnC6, lastResult := vNum 9, lastRun := 3, subscribers := [] } () rfl rfl

theorem lookupField_setField_self (fs : List (String × JSValue)) (k : String) (v : JSValue) :
    lookupField (setField fs k v) k = v := by
  induction fs with
  | nil => simp [setField, lookupField]
  | cons hd tl ih =>
      obtain ⟨k0, v0⟩ := hd
      by_cases h : k0 = k
      · simp [setField, h, lookupField]
      · simp [setField, h, lookupField, ih]

theorem get_after_set : ∀ (p : List String) (r nv : JSValue),
    writable r p = true → getValueAtPath (setValueAtPath r p nv) p = nv
  | [], r, nv => by intro h; simp [writable] at h
  | [k], r, nv => by
      intro h
      cases r with
      | vObj fs =>
          show getValueAtPath (vObj (setField fs k nv)) [k] = nv
          show indexVal (vObj (setField fs k nv)) k = nv
          exact lookupField_setField_self fs k nv
      | vNull => simp [writable] at h
      | vUndefined => simp [writable] at h
      | vStr s => simp [writable] at h
      | vNum n => simp [writable] at h
      | vBool b => simp [writable] at h
      | vHost => simp [writable] at h
  | k :: k2 :: rest, r, nv => by
      intro h
      cases r with
      | vObj fs =>
          have hw : writable (lookupField fs k) (k2 :: rest) = true := h
          cases hf : lookupField fs k with
          | vObj fs2 =>
              rw [hf] at hw
              show getValueAtPath
                (match lookupField fs k with
                  | vObj fs2 => vObj (setField fs k (setValueAtPath (vObj fs2) (k2 :: rest) nv))
                  | _ => vObj fs) (k :: k2 :: rest) = nv
              rw [hf]
              show getValueAtPath
                (indexVal (vObj (setField fs k (setValueAtPath (vObj fs2) (k2 :: rest) nv))) k)
                (k2 :: rest) = nv
              rw [show indexVal
                    (vObj (setField fs k (setValueAtPath (vObj fs2) (k2 :: rest) nv))) k =
                  setValueAtPath (vObj fs2) (k2 :: rest) nv from
                lookupField_setField_self _ _ _]
              exact get_after_set (k2 :: rest) (vObj fs2) nv hw
          | vNull => rw [hf] at hw; simp [writable] at hw
          | vUndefined => rw [hf] at hw; simp [writable] at hw
          | vStr s => rw [hf] at hw; simp [writable] at hw
          | vNum n => rw [hf] at hw; simp [writable] at hw
          | vBool b => rw [hf] at hw; simp [writable] at hw
          | vHost => rw [hf] at hw; simp [writable] at hw
      | vNull => simp [writable] at h
      | vUndefined => simp [writable] at h
      | vStr s => simp [writable] at h
      | vNum n => simp [writable] at h
      | vBool b => simp [writable] at h
      | vHost => simp [writable] at h

/-- Claim C7: reading a property whose current value on the wrapped
object is absent (undefined) takes the leaf branch and yields a live
reference bound to basePath plus the property; that reference resolves
to the absent marker while the root path is unpopulated, and to the
written value once the path is populated through a write. -/
theorem absent_read_yields_live (root target : JSValue) (bp : List String) (prop : String)
    (e : Engine) (habs : indexVal target prop = vUndefined) :
    proxyGet target bp prop = ReadResult.live (bp ++ [prop]) ∧
    (getValueAtPath root (bp ++ [prop]) = vUndefined →
      (coerceLive root { path := bp ++ [prop] } e).2 = vUndefined) ∧
    (∀ nv, writable root (bp ++ [prop]) = true →
      (coerceLive (setValueAtPath root (bp ++ [prop]) nv) { path := bp ++ [prop] } e).2 = nv) := by
  refine ⟨?_, ?_, ?_⟩
  · simp [proxyGet, habs, isPrimitive]
  · intro h
    show getValueAtPath root (bp ++ [prop]) = vUndefined
    exact h
  · intro nv hw
    show getValueAtPath (setValueAtPath root (bp ++ [prop]) nv) (bp ++ [prop]) = nv
    exact get_after_set _ _ _ hw

/-- Witness for C7: on the root with empty container a, reading b on
the wrapper at a yields a live reference at a.b that resolves to the
absent marker, and to 7 after a.b is populated. -/
theorem absent_read_yields_live_witness :
    proxyGet (vObj []) ["a"] "b" = ReadResult.live ["a", "b"] ∧
    (coerceLive rootC7 { path := ["a", "b"] } emptyEngine).2 = vUndefined ∧
    (coerceLive (setValueAtPath rootC7 ["a", "b"] (vNum 7)) { path := ["a", "b"] }
        emptyEngine).2 = vNum 7 := by
  have h := absent_read_yields_live rootC7 (vObj []) ["a"] "b" emptyEngine rfl
  exact ⟨h.1, h.2.1 rfl, h.2.2 (vNum 7) rfl⟩

theorem computed_ret (e : Engine) (name : String) (fn : CompFn) :
    (computed name fn e).2 = fn.outcome := by
  unfold computed
  refine runComputation_ret _ name (freshEntry fn) ?_
  exact lookupAssoc_setAssoc_self _ _ _

theorem computed_lastResult_ok (e : Engine) (name : String) (fn : CompFn) (v : JSValue)
    (hv : fn.outcome = Except.ok v) :
    (lookupAssoc (computed name fn e).1.computedRegistry name).map CompEntry.lastResult =
      some v := by
  unfold computed runComputation
  split
  next hnone => rw [lookupAssoc_setAssoc_self] at hnone; cases hnone
  next comp' hsome =>
    rw [lookupAssoc_setAssoc_self] at hsome
    have hc := Option.some.inj hsome
    subst hc
    split
    next u ho =>
      have : fn.outcome = Except.error u := ho
      rw [hv] at this; cases this
    next v2 ho =>
      have hvv : fn.outcome = Except.ok v2 := ho
      rw [hv] at hvv
      have : v2 = v := (Except.ok.inj hvv).symm
      subst this
      rw [lookupAssoc_setAssoc_self]
      rfl

theorem computed_lastResult_err (e : Engine) (name : String) (fn : CompFn) (u : Unit)
    (hu : fn.outcome = Except.error u) :
    (lookupAssoc (computed name fn e).1.computedRegistry name).map CompEntry.lastResult =
      some vUndefined := by
  unfold computed runComputation
  split
  next hnone => rw [lookupAssoc_setAssoc_self] at hnone; cases hnone
  next comp' hsome =>
    rw [lookupAssoc_setAssoc_self] at hsome
    have hc := Option.some.inj hsome
    subst hc
    split
    next u2 ho =>
      rw [recordReads_computedRegistry, lookupAssoc_setAssoc_self]
      rfl
    next v ho =>
      have : fn.outcome = Except.ok v := ho
      rw [hu] at this; cases this

/-- Claim C8: registering the same name twice with the same
deterministic body over unchanged root state gives the second run the
same lastResult as the first, and both calls return that first-run
result. -/
theorem computed_twice_same_result (e : Engine) (name : String) (fn : CompFn) :
    (computed name fn (computed name fn e).1).2 = (computed name fn e).2 ∧
    (lookupAssoc (computed name fn (computed name fn e).1).1.computedRegistry name).map
        CompEntry.lastResult =
      (lookupAssoc (computed name fn e).1.computedRegistry name).map CompEntry.lastResult := by
  refine ⟨(computed_ret _ name fn).trans (computed_ret _ name fn).symm, ?_⟩
  cases ho : fn.outcome with
  | ok v =>
      rw [computed_lastResult_ok (computed name fn e).1 name fn v ho,
          computed_lastResult_ok e name fn v ho]
  | error u =>
      rw [computed_lastResult_err (computed name fn e).1 name fn u ho,
          computed_lastResult_err e name fn u ho]

/-- Claim C9: dependency recording and change invalidation identify a
path solely by its dot-joined key: two key sequences with equal
dot-joined strings produce identical recording effects, and a change at
one matches a dependency recorded from the other — in particular the
one-key path [a.b] and the two-key path [a, b]. -/
theorem path_key_identity (p q : List String) (h : dotJoin p = dotJoin q) :
    (∀ e, recordDependency p e = recordDependency q e) ∧
    (∀ deps, dotJoin p ∈ deps → shouldRecompute (dotJoin q) deps = true) := by
  constructor
  · intro e
    unfold recordDependency
    rw [h]
  · intro deps hmem
    unfold shouldRecompute
    rw [List.any_eq_true]
    exact ⟨dotJoin p, hmem, by simp [h]⟩

/-- Witness for C9: the one-key path [a.b] and the two-key path [a, b]
share the key a.b; recording either produces the same engine, and a
write at [a, b] matches a dependency set holding a.b recorded from
[a.b]. -/
theorem path_key_identity_witness :
    recordDependency ["a.b"] eC9 = recordDependency ["a", "b"] eC9 ∧
    shouldRecompute (dotJoin ["a", "b"]) ["a.b"] = true :=
  ⟨(path_key_identity ["a.b"] ["a", "b"] rfl).1 eC9,
   (path_key_identity ["a.b"] ["a", "b"] rfl).2 ["a.b"] (by decide)⟩

/-- Claim C10: re-registering an existing name replaces the whole
registry entry: previously subscribed callbacks are discarded, and
lastResult and lastRun are reset (visible when the new body raises:
they end as undefined and 0, not the old values) before the immediate
first run repopulates them (on success lastResult is the new body's
result). -/
theorem reregistration_resets_entry (e : Engine) (name : String) (fn : CompFn) :
    (lookupAssoc (computed name fn e).1.computedRegistry name).map CompEntry.subscribers =
      some [] ∧
    (∀ u, fn.outcome = Except.error u →
      lookupAssoc (computed name fn e).1.computedRegistry name =
        some { fn := fn, lastResult := vUndefined, lastRun := 0, subscribers := [] }) ∧
    (∀ v, fn.outcome = Except.ok v →
      (lookupAssoc (computed name fn e).1.computedRegistry name).map CompEntry.lastResult =
        some v) := by
  refine ⟨?_, ?_, ?_⟩
  · unfold computed runComputation
    split
    next hnone => rw [lookupAssoc_setAssoc_self] at hnone; cases hnone
    next comp' hsome =>
      rw [lookupAssoc_setAssoc_self] at hsome
      have hc := Option.some.inj hsome
      subst hc
      split
      next u ho =>
        rw [recordReads_computedRegistry, lookupAssoc_setAssoc_self]
        rfl
      next v ho =>
        rw [lookupAssoc_setAssoc_self]
        rfl
  · intro u hu
    unfold computed runComputation
    split
    next hnone => rw [lookupAssoc_setAssoc_self] at hnone; cases hnone
    next comp' hsome =>
      rw [lookupAssoc_setAssoc_self] at hsome
      have hc := Option.some.inj hsome
      subst hc
      split
      next u2 ho =>
        rw [recordReads_computedRegistry, lookupAssoc_setAssoc_self]
        rfl
      next v ho =>
        have : fn.outcome = Except.ok v := ho
        rw [hu] at this; cases this
  · intro v hv
    exact computed_lastResult_ok e name fn v hv

/-- Witness for C10: computation c had subscriber 5 and stored result
9; re-registering c with a body returning 4 discards the subscriber and
repopulates lastResult with 4. -/
theorem reregistration_resets_entry_witness :
    (lookupAssoc eC10.computedRegistry "c").map CompEntry.subscribers = some [5] ∧
    (lookupAssoc (computed "c" fnC10 eC10).1.computedRegistry "c").map CompEntry.subscribers =
      some [] ∧
    (lookupAssoc (computed "c" fnC10 eC10).1.computedRegistry "c").map CompEntry.lastResult =
      some (vNum 4) :=
  ⟨rfl, (reregistration_resets_entry eC10 "c" fnC10).1,
   (reregistration_resets_entry eC10 "c" fnC10).2.2 (vNum 4) rfl⟩

theorem proxyGet_live_path (target : JSValue) (bp : List String) (k : String) (p : List String)
    (h : proxyGet target bp k = ReadResult.live p) : p = bp ++ [k] := by
  simp only [proxyGet] at h
  split at h
  · exact (ReadResult.live.inj h).symm
  · split at h <;> exact ReadResult.noConfusion h

theorem proxyGet_wrapper_path (target : JSValue) (bp : List String) (k : String)
    (t : JSValue) (p : List String)
    (h : proxyGet target bp k = ReadResult.wrapper t p) : p = bp ++ [k] := by
  simp only [proxyGet] at h
  split at h
  · exact ReadResult.noConfusion h
  · split at h
    · exact (ReadResult.wrapper.inj h).2.symm
    · exact ReadResult.noConfusion h

theorem readChain_path : ∀ (ks : List String) (target : JSValue) (bp : List String) (L : LiveRef),
    readChain target bp ks = some L → L.path = bp ++ ks
  | [], _, _, _ => by intro h; cases h
  | [k], target, bp, L => by
      intro h
      unfold readChain at h
      split at h
      next p hp =>
        cases h
        exact proxyGet_live_path target bp k p hp
      next => cases h
  | k :: k2 :: rest, target, bp, L => by
      intro h
      unfold readChain at h
      split at h
      next t p hp =>
        have := readChain_path (k2 :: rest) t p L h
        rw [this, proxyGet_wrapper_path target bp k t p hp, List.append_assoc]
        rfl
      next => cases h

/-- Claim C1: a live reference extracted by reading the key chain ks
through the interception layer from root R is bound to path ks, and
coercing it after any sequence M of mutations applied through the
interception layer yields exactly the path resolver's answer over the
root's contents at the instant of coercion — never a cached snapshot;
M may in particular replace a whole ancestor container of the path with
a new container holding a value at the suffix path. -/
theorem live_resolution (R : JSValue) (ks : List String) (L : LiveRef)
    (M : List (List String × String × JSValue)) (e eM : Engine)
    (h : readChain R [] ks = some L) :
    (coerceLive (applyWrites R eM M).1 L e).2 = getValueAtPath (applyWrites R eM M).1 ks := by
  show getValueAtPath (applyWrites R eM M).1 L.path = _
  rw [readChain_path ks R [] L h]
  rfl

/-- Witness for C1: the spec scenario — root a.b holding 1, extract the
live reference at a.b, replace the entire container a by a new
container with b holding 2; coercion now yields 2, the resolver's
answer over the current contents. -/
theorem live_resolution_witness :
    readChain rootW [] ["a", "b"] = some { path := ["a", "b"] } ∧
    (coerceLive (applyWrites rootW emptyEngine mutsW).1 { path := ["a", "b"] }
        emptyEngine).2 = vNum 2 :=
  ⟨rfl,
   (live_resolution rootW ["a", "b"] { path := ["a", "b"] } mutsW emptyEngine emptyEngine
      rfl).trans rfl⟩

theorem registeredOk_run (e : Engine) (name m : String) :
    registeredOk (runComputation name e).1.computedRegistry m =
      registeredOk e.computedRegistry m :=
  registeredOk_congr _ _ m (runComputation_registry_fn e name m)

theorem runComputation_ok_exists (e : Engine) (name : String)
    (h : registeredOk e.computedRegistry name = true) :
    ∃ v, (runComputation name e).2 = Except.ok v := by
  unfold registeredOk at h
  split at h
  next comp hreg =>
    cases ho : comp.fn.outcome with
    | ok v => exact ⟨v, (runComputation_ret e name comp hreg).trans ho⟩
    | error u => rw [ho] at h; exact Bool.noConfusion h
  next => cases h

theorem triggerGo_spec (key : String) :
    ∀ (gl : List (String × List String)) (e : Engine),
      (gl.map Prod.fst).Nodup →
      (∀ pr ∈ gl, lookupAssoc e.dependencyGraph pr.1 = some pr.2) →
      (∀ pr ∈ gl, registeredOk e.computedRegistry pr.1 = true) →
      (triggerGo key (gl.map Prod.fst) e).2 =
        Except.ok ((gl.filter (fun pr => shouldRecompute key pr.2)).map Prod.fst)
  | [], e, _, _, _ => rfl
  | (name, deps) :: tl, e, hnd, hsub, hreg => by
      rw [List.map_cons] at hnd
      have hname : name ∉ tl.map Prod.fst := (List.nodup_cons.mp hnd).1
      have hndtl : (tl.map Prod.fst).Nodup := (List.nodup_cons.mp hnd).2
      have hdeps : lookupAssoc e.dependencyGraph name = some deps :=
        hsub (name, deps) (List.mem_cons_self (name, deps) tl)
      show (triggerGo key (name :: tl.map Prod.fst) e).2 = _
      unfold triggerGo
      rw [hdeps]
      by_cases hsc : shouldRecompute key deps = true
      · rw [if_pos (by simpa using hsc)]
        obtain ⟨v, hv⟩ := runComputation_ok_exists e name
          (hreg (name, deps) (List.mem_cons_self (name, deps) tl))
        have hfil : (((name, deps) :: tl).filter (fun pr => shouldRecompute key pr.2)) =
            (name, deps) :: tl.filter (fun pr => shouldRecompute key pr.2) := by
          simp [List.filter_cons, hsc]
        rw [hfil, List.map_cons]
        have htl : (triggerGo key (tl.map Prod.fst) (runComputation name e).1).2 =
            Except.ok ((tl.filter (fun pr => shouldRecompute key pr.2)).map Prod.fst) := by
          refine triggerGo_spec key tl (runComputation name e).1 hndtl ?_ ?_
          · intro pr hpr
            have hne : pr.1 ≠ name := by
              intro he
              exact hname (he ▸ List.mem_map_of_mem Prod.fst hpr)
            rw [runComputation_graph_ne e name pr.1 hne]
            exact hsub pr (List.mem_cons_of_mem _ hpr)
          · intro pr hpr
            rw [registeredOk_run e name pr.1]
            exact hreg pr (List.mem_cons_of_mem _ hpr)
        cases hrun : runComputation name e with
        | mk e1 r =>
            have hr : r = Except.ok v := by rw [hrun] at hv; exact hv
            subst hr
            rw [hrun] at htl
            show (match triggerGo key (List.map Prod.fst tl) e1 with
                  | (e2, Except.error u) => (e2, Except.error u)
                  | (e2, Except.ok ran) => (e2, Except.ok (name :: ran))).2 =
                Except.ok (name ::
                  (tl.filter (fun pr => shouldRecompute key pr.2)).map Prod.fst)
            cases htg : triggerGo key (List.map Prod.fst tl) e1 with
            | mk e2 r2 =>
                have hr2 : r2 = Except.ok ((tl.filter
                    (fun pr => shouldRecompute key pr.2)).map Prod.fst) := by
                  rw [htg] at htl; exact htl
                rw [hr2]
      · rw [if_neg (by simpa using hsc)]
        have hfil : (((name, deps) :: tl).filter (fun pr => shouldRecompute key pr.2)) =
            tl.filter (fun pr => shouldRecompute key pr.2) := by
          simp [List.filter_cons, hsc]
        rw [hfil]
        exact triggerGo_spec key tl e hndtl
          (fun pr hpr => hsub pr (List.mem_cons_of_mem _ hpr))
          (fun pr hpr => hreg pr (List.mem_cons_of_mem _ hpr))

/-- Claim C2: a change notification synchronously re-runs exactly those
registered computations whose dependency set contains a key that equals
the changed key, extends it below a dot (descendant), or is extended by
it below a dot (ancestor) — three-way prefix match in either direction;
stated for engines whose graph names are distinct and registered with
normally returning bodies (a raised failure would abort the remaining
iteration). -/
theorem notify_runs_exactly_matching (e : Engine) (changedPath : List String)
    (hnd : (e.dependencyGraph.map Prod.fst).Nodup)
    (hreg : ∀ pr ∈ e.dependencyGraph, registeredOk e.computedRegistry pr.1 = true) :
    (triggerRecomputations changedPath e).2 =
      Except.ok ((e.dependencyGraph.filter
        (fun pr => shouldRecompute (dotJoin changedPath) pr.2)).map Prod.fst) :=
  triggerGo_spec (dotJoin changedPath) e.dependencyGraph e hnd
    (fun pr hpr => lookupAssoc_of_mem _ pr hnd hpr) hreg

/-- Witness for C2: computation f read user.firstName and computation g
read zzz; replacing user wholesale re-runs exactly f (ancestor
direction of the three-way match), and writing user.firstName
individually also re-runs exactly f. -/
theorem notify_runs_exactly_matching_witness :
    (eC2.dependencyGraph.map Prod.fst).Nodup ∧
    (∀ pr ∈ eC2.dependencyGraph, registeredOk eC2.computedRegistry pr.1 = true) ∧
    (triggerRecomputations ["user"] eC2).2 = Except.ok ["f"] ∧
    (triggerRecomputations ["user", "firstName"] eC2).2 = Except.ok ["f"] := by
  refine ⟨by decide, by decide, ?_, ?_⟩
  · exact (notify_runs_exactly_matching eC2 ["user"] (by decide) (by decide)).trans rfl
  · exact (notify_runs_exactly_matching eC2 ["user", "firstName"] (by decide)
      (by decide)).trans rfl

end CosplayingFns
